import Mathlib

/- Verification development for the av-object-generation repository.

   The subject programs are the conditional point-cloud VAE
   `FlowVAESurfaceConditional` in models/vae_flow_surface_mhsa.py and the
   dataset layer in utils/dataset.py.  Real-valued tensors are modelled as
   lists of real numbers: a 2-D tensor of shape (B, C) is a list of B rows,
   each a list of C reals; a 3-D tensor is a list of such matrices.
   External collaborators (the point-cloud encoder, the latent flow, the
   diffusion decoder) are abstract function parameters, following the
   specification which treats them as black boxes with fixed contracts.
   Library layers called by the source (torch.nn.Linear, torch.nn.BatchNorm1d,
   torch.nn.MultiheadAttention) are modelled by their documented contracts. -/

namespace AVObjGen

noncomputable section ModelLayer

/-! ### Basic vector and matrix operations -/

/-- Dot product of two equal-length real vectors. -/
def dotR (u v : List ℝ) : ℝ := (List.zipWith (fun a b => a * b) u v).sum

/-- Matrix-vector product, the matrix given as a list of rows. -/
def matVecR (M : List (List ℝ)) (v : List ℝ) : List ℝ := M.map (fun row => dotR row v)

/-- Forward pass of torch.nn.Linear with weight rows W and bias b: x maps to W x + b. -/
def linearR (W : List (List ℝ)) (b : List ℝ) (x : List ℝ) : List ℝ :=
  List.zipWith (fun a c => a + c) (matVecR W x) b

/-- Scale every entry of a vector by a. -/
def scaleVec (a : ℝ) (v : List ℝ) : List ℝ := v.map (fun x => a * x)

/-- Entrywise sum of two vectors. -/
def addVec (u v : List ℝ) : List ℝ := List.zipWith (fun a b => a + b) u v

/-- Sum of a list of vectors of common dimension dim. -/
def sumVecs (l : List (List ℝ)) (dim : Nat) : List ℝ :=
  l.foldr addVec (List.replicate dim 0)

/-- Mean of a list of reals, as torch .mean(): sum divided by length. -/
def listMean (l : List ℝ) : ℝ := l.sum / l.length

/-! ### torch.nn.MultiheadAttention

The source constructs `nn.MultiheadAttention(args.latent_dim, 2)` and calls it
as `self.MHSA(z, z, z)`.  Per the documented torch contract the call returns a
pair `(attn_output, attn_output_weights)`.  With the default
`batch_first=False` a 3-D input of shape (L, N, E) is read as a length-L
sequence of batches of size N; the per-head computation projects queries,
keys and values, scales queries by `head_dim ** -0.5`, applies softmax over
the sequence axis, and concatenates the head outputs before the output
projection. -/

/-- Softmax of a list of scores. -/
noncomputable def softmaxR (s : List ℝ) : List ℝ :=
  s.map (fun x => Real.exp x / (s.map Real.exp).sum)

/-- Parameters of torch.nn.MultiheadAttention: the three slices of the packed
input projection, the output projection, and the head configuration. -/
structure MHSAParams where
  wq : List (List ℝ)
  wk : List (List ℝ)
  wv : List (List ℝ)
  wo : List (List ℝ)
  bq : List ℝ
  bk : List ℝ
  bv : List ℝ
  bo : List ℝ
  embedDim : Nat
  numHeads : Nat

/-- Head h of a projected vector: the h-th chunk of hd consecutive entries. -/
def headSlice (hd h : Nat) (v : List ℝ) : List ℝ := (v.drop (h * hd)).take hd

/-- Single-head scaled dot-product attention over one sequence (batch size 1):
queries are scaled by the reciprocal square root of the head dimension,
scores are taken against every key in the sequence, and the softmax weights
combine the values. -/
noncomputable def attnHeadOut (hd : Nat) (qs ks vs : List (List ℝ)) : List (List ℝ) :=
  qs.map (fun q =>
    let scores := ks.map (fun k => dotR (scaleVec (1 / Real.sqrt (hd : ℝ)) q) k)
    sumVecs (List.zipWith scaleVec (softmaxR scores) vs) hd)

/-- The softmax weight matrix of one attention head. -/
noncomputable def attnHeadWeights (hd : Nat) (qs ks : List (List ℝ)) : List (List ℝ) :=
  qs.map (fun q => softmaxR (ks.map (fun k => dotR (scaleVec (1 / Real.sqrt (hd : ℝ)) q) k)))

/-- Concatenation of the per-head outputs position by position. -/
def concatHeads (hs : List (List (List ℝ))) (len : Nat) : List (List ℝ) :=
  (List.range len).map (fun i => (hs.map (fun m => m.getD i [])).flatten)

/-- The attn_output component of torch.nn.MultiheadAttention on one sequence
(batch size 1): project, split into heads, attend per head, concatenate the
heads and apply the output projection. -/
noncomputable def mhsaAttnOut (p : MHSAParams) (seq : List (List ℝ)) : List (List ℝ) :=
  let qs := seq.map (linearR p.wq p.bq)
  let ks := seq.map (linearR p.wk p.bk)
  let vs := seq.map (linearR p.wv p.bv)
  let hd := p.embedDim / p.numHeads
  let headOuts := (List.range p.numHeads).map (fun h =>
    attnHeadOut hd (qs.map (headSlice hd h)) (ks.map (headSlice hd h))
      (vs.map (headSlice hd h)))
  (concatHeads headOuts seq.length).map (linearR p.wo p.bo)

/-- The attn_output_weights component: the attention weights averaged over the
heads (the default average_attn_weights=True). -/
noncomputable def mhsaAttnWeights (p : MHSAParams) (seq : List (List ℝ)) : List (List ℝ) :=
  let qs := seq.map (linearR p.wq p.bq)
  let ks := seq.map (linearR p.wk p.bk)
  let hd := p.embedDim / p.numHeads
  let headWs := (List.range p.numHeads).map (fun h =>
    attnHeadWeights hd (qs.map (headSlice hd h)) (ks.map (headSlice hd h)))
  (List.range seq.length).map (fun i =>
    (List.range seq.length).map (fun j =>
      ((headWs.map (fun m => (m.getD i []).getD j 0)).sum) / (p.numHeads : ℝ)))

/-- The full return value of the MultiheadAttention call: the pair of the
attention output and the averaged attention weights. -/
noncomputable def mhsaForward (p : MHSAParams) (seq : List (List ℝ)) :
    List (List ℝ) × List (List ℝ) :=
  (mhsaAttnOut p seq, mhsaAttnWeights p seq)

/-! ### torch.nn.BatchNorm1d in evaluation mode

In evaluation mode BatchNorm1d normalizes each channel with the stored
running statistics: channel c of a row x maps to
gamma c * (x c - mean c) / sqrt (var c + eps) + beta c with eps = 1e-5. -/

/-- Learned affine parameters and running statistics of one BatchNorm1d layer. -/
structure BNParams where
  gamma : List ℝ
  beta : List ℝ
  mean : List ℝ
  var : List ℝ

/-- Evaluation-mode BatchNorm1d applied to one row. -/
noncomputable def bnEvalVec (p : BNParams) (x : List ℝ) : List ℝ :=
  (List.range x.length).map (fun i =>
    p.gamma.getD i 1 * (x.getD i 0 - p.mean.getD i 0) /
      Real.sqrt (p.var.getD i 0 + 1 / 100000) + p.beta.getD i 0)

/-! ### The pose-conditioning block of FlowVAESurfaceConditional

Lines 59 to 64 of models/vae_flow_surface_mhsa.py:

  z = torch.cat([z, view_angle, yaw], dim=1)
  z = self.BN1(self.FC1(z))
  z = self.BN2(self.FC2(z))
  z = z.unsqueeze(1)
  z = self.MHSA(z, z, z)
  z = z.squeeze(1)

`z.unsqueeze(1)` has shape (B, 1, D); with the default batch_first=False the
MultiheadAttention call reads dimension 0 as the sequence, so the B batch
rows form one length-B sequence with batch size 1. -/

/-- The learned parameters of the conditioning block: FC1, FC2 and the
MultiheadAttention layer. -/
structure CondParams where
  fc1W : List (List ℝ)
  fc1b : List ℝ
  fc2W : List (List ℝ)
  fc2b : List ℝ
  mhsa : MHSAParams

/-- The conditioning pipeline of lines 59 to 64 with evaluation-mode
normalization, and with the pair returned by the MultiheadAttention call
unpacked to its first component (the attention output).  The source as
written does not unpack the pair: see condBlockDyn below for the faithful
dynamic semantics of the lines. -/
noncomputable def condBlockEval (cp : CondParams) (bn1 bn2 : BNParams)
    (z va yw : List (List ℝ)) : List (List ℝ) :=
  let zc := List.zipWith (fun r vy => r ++ vy) z (List.zipWith (fun a b => a ++ b) va yw)
  let h1 := (zc.map (linearR cp.fc1W cp.fc1b)).map (bnEvalVec bn1)
  let h2 := (h1.map (linearR cp.fc2W cp.fc2b)).map (bnEvalVec bn2)
  (mhsaForward cp.mhsa h2).1

/-! ### Dynamic semantics of the conditioning lines as written

The source assigns `z = self.MHSA(z, z, z)` and then calls `z.squeeze(1)`.
The MultiheadAttention call returns a pair, and a Python tuple has no squeeze
method, so the dynamic value semantics below tracks which Python value each
line produces: a 2-D tensor, a 3-D tensor, or a tuple.  An operation applied
to a value of the wrong kind returns none (the raised AttributeError). -/

/-- A runtime value of the pipeline: a 2-D tensor, a 3-D tensor or a tuple. -/
inductive TorchVal where
  | t2 (rows : List (List ℝ))
  | t3 (x : List (List (List ℝ)))
  | tup (a b : TorchVal)

/-- torch.cat([z, view_angle, yaw], dim=1) on 2-D tensors. -/
def catDim1 : TorchVal → TorchVal → TorchVal → Option TorchVal
  | .t2 a, .t2 b, .t2 c =>
      some (.t2 (List.zipWith (fun r vy => r ++ vy) a (List.zipWith (fun u v => u ++ v) b c)))
  | _, _, _ => none

/-- A Linear layer applied row-wise to a 2-D tensor. -/
def linearT (W : List (List ℝ)) (b : List ℝ) : TorchVal → Option TorchVal
  | .t2 rows => some (.t2 (rows.map (linearR W b)))
  | _ => none

/-- A BatchNorm1d layer applied to a 2-D tensor.  The layer is passed as a
whole-batch function so that both the training mode (batch statistics) and
the evaluation mode (running statistics) are covered. -/
def bnT (f : List (List ℝ) → List (List ℝ)) : TorchVal → Option TorchVal
  | .t2 rows => some (.t2 (f rows))
  | _ => none

/-- z.unsqueeze(1): a (B, C) tensor becomes (B, 1, C). -/
def unsqueeze1T : TorchVal → Option TorchVal
  | .t2 rows => some (.t3 (rows.map (fun r => [r])))
  | _ => none

/-- The MultiheadAttention call on a (B, 1, D) tensor: with batch_first=False
the B rows form one length-B sequence of batch size 1, and the call returns
the tuple (attn_output, attn_output_weights). -/
def mhsaT (p : MHSAParams) : TorchVal → Option TorchVal
  | .t3 x =>
      let seq := x.map List.flatten
      some (.tup (.t3 ((mhsaAttnOut p seq).map (fun r => [r])))
                 (.t3 [mhsaAttnWeights p seq]))
  | _ => none

/-- z.squeeze(1): defined on tensors; on a tuple the attribute lookup fails
(Python tuples have no squeeze method), modelled as none. -/
def squeeze1T : TorchVal → Option TorchVal
  | .t3 x => some (.t2 (x.map List.flatten))
  | .t2 rows => some (.t2 rows)
  | .tup _ _ => none

/-- The rows of a 2-D tensor value. -/
def toRows : TorchVal → Option (List (List ℝ))
  | .t2 rows => some rows
  | _ => none

/-- Lines 59 to 64 of models/vae_flow_surface_mhsa.py exactly as written:
concatenate the pose scalars, apply FC1, BN1, FC2, BN2, unsqueeze, call the
MultiheadAttention layer, and squeeze the result. -/
def condBlockDyn (cp : CondParams) (bn1 bn2 : List (List ℝ) → List (List ℝ))
    (z va yw : List (List ℝ)) : Option (List (List ℝ)) := do
  let z1 ← catDim1 (.t2 z) (.t2 va) (.t2 yw)
  let z2 ← linearT cp.fc1W cp.fc1b z1
  let z3 ← bnT bn1 z2
  let z4 ← linearT cp.fc2W cp.fc2b z3
  let z5 ← bnT bn2 z4
  let z6 ← unsqueeze1T z5
  let z7 ← mhsaT cp.mhsa z6
  let z8 ← squeeze1T z7
  toRows z8

/-! ### Functions of models/common.py used by get_loss

models/common.py is not among the repository files at hand; the three
helpers below are modelled from the specification. -/

/-- Modelled from the spec: reparameterize_gaussian of models/common.py,
z = mean + exp(0.5 * log_variance) * eps with eps a fresh standard-normal
draw, applied elementwise over the batch. -/
def reparameterizeGaussian (mean logvar eps : List (List ℝ)) : List (List ℝ) :=
  List.zipWith (fun mrow le =>
      List.zipWith (fun m (p : ℝ × ℝ) => m + Real.exp (0.5 * p.1) * p.2) mrow le)
    mean (List.zipWith (fun lrow erow => List.zipWith (fun a b => (a, b)) lrow erow) logvar eps)

/-- Modelled from the spec: gaussian_entropy of models/common.py, the
closed-form entropy of a diagonal Gaussian,
0.5 * sum over d of (log_variance d + log (2 * pi * e)). -/
def gaussianEntropyRow (logvar : List ℝ) : ℝ :=
  0.5 * ((logvar.map (fun v => v + Real.log (2 * Real.pi * Real.exp 1))).sum)

/-- Modelled from the spec: standard_normal_logprob of models/common.py, the
standard-normal log-density applied elementwise,
-0.5 * log (2 * pi) - x ^ 2 / 2. -/
def stdNormalLogprob (x : ℝ) : ℝ := -(0.5) * Real.log (2 * Real.pi) - x ^ 2 / 2

/-! ### get_loss and sample of FlowVAESurfaceConditional -/

/-- The external collaborators of FlowVAESurfaceConditional, abstracted per
the specification: the encoder, the fresh reparameterization noise, the
latent flow in both directions with its log-determinant, the diffusion
training loss and the diffusion sampler, and truncated_normal_. -/
structure ExtComponents where
  encoder : List (List (List ℝ)) → List (List ℝ) × List (List ℝ)
  eps : List (List ℝ)
  flow : List (List ℝ) → List (List ℝ) × List ℝ
  diffLoss : List (List (List ℝ)) → List (List ℝ) → ℝ
  flowRev : List (List ℝ) → List (List ℝ)
  diffSample : Nat → List (List ℝ) → ℝ → List (List (List ℝ))
  truncNormal : List (List ℝ) → ℝ → List (List ℝ)

/-- The values get_loss hands to its collaborators and the loss it returns:
the argument of the flow prior, the context of the diffusion decoder, and
the composed loss. -/
structure LossTrace where
  flowArg : List (List ℝ)
  diffArg : List (List ℝ)
  loss : ℝ

/-- FlowVAESurfaceConditional.get_loss, lines 45 to 91: encode, draw z by
reparameterization, run the conditioning lines (condBlockDyn), compute the
entropy, the flow prior log-likelihood and the diffusion loss, and compose
kl_weight * (loss_entropy + loss_prior) + neg_elbo.  The trace records the
value handed to the flow and to the diffusion decoder. -/
def getLossRun (M : ExtComponents) (cp : CondParams)
    (bn1 bn2 : List (List ℝ) → List (List ℝ))
    (x : List (List (List ℝ))) (va yw : List (List ℝ)) (klWeight : ℝ) :
    Option LossTrace := do
  let enc := M.encoder x
  let z := reparameterizeGaussian enc.1 enc.2 M.eps
  let c ← condBlockDyn cp bn1 bn2 z va yw
  let entropy := enc.2.map gaussianEntropyRow
  let fw := M.flow c
  let logPw := fw.1.map (fun row => (row.map stdNormalLogprob).sum)
  let logPz := List.zipWith (fun a b => a - b) logPw fw.2
  let negElbo := M.diffLoss x c
  let lossEntropy := -(listMean entropy)
  let lossPrior := -(listMean logPz)
  some { flowArg := c, diffArg := c, loss := klWeight * (lossEntropy + lossPrior) + negElbo }

/-- FlowVAESurfaceConditional.sample, lines 93 to 107: optionally truncate w,
run the flow in reverse, run the conditioning lines (condBlockDyn), and hand
the context to the diffusion sampler. -/
def sampleRun (M : ExtComponents) (cp : CondParams)
    (bn1 bn2 : List (List ℝ) → List (List ℝ))
    (w va yw : List (List ℝ)) (numPoints : Nat) (flexibility : ℝ)
    (truncStd : Option ℝ) : Option (List (List (List ℝ))) := do
  let w1 := match truncStd with
    | some s => M.truncNormal w s
    | none => w
  let z := M.flowRev w1
  let c ← condBlockDyn cp bn1 bn2 z va yw
  some (M.diffSample numPoints c flexibility)

/-- On every input the conditioning lines stop at z.squeeze(1): the value
reaching it is the tuple returned by the MultiheadAttention call. -/
theorem condBlockDyn_eq_none (cp : CondParams)
    (bn1 bn2 : List (List ℝ) → List (List ℝ)) (z va yw : List (List ℝ)) :
    condBlockDyn cp bn1 bn2 z va yw = none := rfl

/-! ### Concrete instances used by the claim theorems

A latent dimension of 2 (so FC1 maps R^4 to R^1, FC2 maps R^1 to R^2, and the
MultiheadAttention layer has 2 heads of dimension 1).  The attention weights
wq and wk are zero, so every attention score is 0 and the softmax weights are
uniform; wv and wo are the identity; the BatchNorm running statistics make
the evaluation-mode normalization the identity (var + eps = 1). -/

/-- Concrete MultiheadAttention parameters: zero query and key projections,
identity value and output projections, 2 heads over dimension 2. -/
def mhsaEx : MHSAParams :=
  { wq := [[0, 0], [0, 0]], wk := [[0, 0], [0, 0]], wv := [[1, 0], [0, 1]],
    wo := [[1, 0], [0, 1]], bq := [0, 0], bk := [0, 0], bv := [0, 0], bo := [0, 0],
    embedDim := 2, numHeads := 2 }

/-- Concrete conditioning-block parameters for latent dimension 2. -/
def cpEx : CondParams :=
  { fc1W := [[1, 0, 0, 0]], fc1b := [0], fc2W := [[1], [0]], fc2b := [0, 0], mhsa := mhsaEx }

/-- BatchNorm1d running statistics on 1 channel making evaluation mode the
identity map. -/
def bnEx1 : BNParams := { gamma := [1], beta := [0], mean := [0], var := [1 - 1 / 100000] }

/-- BatchNorm1d running statistics on 2 channels making evaluation mode the
identity map. -/
def bnEx2 : BNParams :=
  { gamma := [1, 1], beta := [0, 0], mean := [0, 0], var := [1 - 1 / 100000, 1 - 1 / 100000] }

/-- Trivial concrete instances of the external collaborators. -/
def extTrivial : ExtComponents :=
  { encoder := fun _ => ([[0, 0]], [[0, 0]]), eps := [[0, 0]],
    flow := fun z => (z, [0]), diffLoss := fun _ _ => 0,
    flowRev := fun w => w, diffSample := fun _ _ _ => [], truncNormal := fun w _ => w }

/-- The batch-of-two conditioning input of the batch-independence
counterexample: latent rows (1, 0) and (-1, 0), zero pose scalars. -/
theorem condBlockEval_pairEx :
    condBlockEval cpEx bnEx1 bnEx2 [[1, 0], [-1, 0]] [[0], [0]] [[0], [0]] =
      [[0, 0], [0, 0]] := by
  norm_num [condBlockEval, mhsaForward, mhsaAttnOut, attnHeadOut, softmaxR, linearR,
    matVecR, dotR, scaleVec, sumVecs, addVec, concatHeads, headSlice, bnEvalVec,
    cpEx, bnEx1, bnEx2, mhsaEx, List.range_succ, List.getD, Real.exp_zero, Real.sqrt_one]

/-- The size-1 slice of the same batch through the conditioning block. -/
theorem condBlockEval_singleEx :
    condBlockEval cpEx bnEx1 bnEx2 [[1, 0]] [[0]] [[0]] = [[1, 0]] := by
  norm_num [condBlockEval, mhsaForward, mhsaAttnOut, attnHeadOut, softmaxR, linearR,
    matVecR, dotR, scaleVec, sumVecs, addVec, concatHeads, headSlice, bnEvalVec,
    cpEx, bnEx1, bnEx2, mhsaEx, List.range_succ, List.getD, Real.exp_zero, Real.sqrt_one]

/-! ### Claim theorems about the core model -/

/-- C1: get_loss never returns the claimed loss value: on every input batch
and kl_weight the conditioning lines raise (the MultiheadAttention call
returns a tuple and z.squeeze(1) is applied to it), so the loss composition
of lines 78 to 81 is never reached. -/
theorem c1_get_loss_never_returns (M : ExtComponents) (cp : CondParams)
    (bn1 bn2 : List (List ℝ) → List (List ℝ))
    (x : List (List (List ℝ))) (va yw : List (List ℝ)) (klWeight : ℝ) :
    getLossRun M cp bn1 bn2 x va yw klWeight = none := rfl

/-- C2: neither the flow prior nor the diffusion decoder ever receives a
conditioning vector: in every call to get_loss the pipeline stops inside the
conditioning lines, before the flow and the diffusion decoder are invoked. -/
theorem c2_no_context_ever_delivered (M : ExtComponents) (cp : CondParams)
    (bn1 bn2 : List (List ℝ) → List (List ℝ))
    (x : List (List (List ℝ))) (va yw : List (List ℝ)) (klWeight : ℝ) :
    (getLossRun M cp bn1 bn2 x va yw klWeight).map LossTrace.flowArg = none ∧
    (getLossRun M cp bn1 bn2 x va yw klWeight).map LossTrace.diffArg = none :=
  ⟨rfl, rfl⟩

/-- C3: the pose-conditioning block as written does not produce a (B, D)
tensor: at the concrete input of latent dimension 2 and batch size 1 the
lines 59 to 64 evaluate to none, because self.MHSA(z, z, z) returns the
tuple (attn_output, attn_output_weights) and z.squeeze(1) is applied to
that tuple. -/
theorem c3_cond_block_returns_no_tensor :
    condBlockDyn cpEx (fun rows => rows) (fun rows => rows) [[0, 0]] [[0]] [[0]] = none := rfl

/-- C4: the conditioning block (with the attention output read from the
returned pair, and evaluation-mode normalization) is not batch-size
independent: row 0 of the batch of two latent rows (1, 0) and (-1, 0) maps
to (0, 0), while the size-1 slice holding only row 0 maps to (1, 0), because
the MultiheadAttention call attends across the batch dimension. -/
theorem c4_cond_block_batch_dependent :
    condBlockEval cpEx bnEx1 bnEx2 [[1, 0], [-1, 0]] [[0], [0]] [[0], [0]] =
      [[0, 0], [0, 0]] ∧
    condBlockEval cpEx bnEx1 bnEx2 [[1, 0]] [[0]] [[0]] = [[1, 0]] ∧
    (condBlockEval cpEx bnEx1 bnEx2 [[1, 0], [-1, 0]] [[0], [0]] [[0], [0]]).getD 0 [] ≠
      (condBlockEval cpEx bnEx1 bnEx2 [[1, 0]] [[0]] [[0]]).getD 0 [] := by
  refine ⟨condBlockEval_pairEx, condBlockEval_singleEx, ?_⟩
  rw [condBlockEval_pairEx, condBlockEval_singleEx]
  norm_num

/-- C5: sample never returns a generated point cloud: on every base-noise
batch (with the default truncate_std = None and also with truncation) the
conditioning lines raise before the diffusion sampler is invoked. -/
theorem c5_sample_never_returns (M : ExtComponents) (cp : CondParams)
    (bn1 bn2 : List (List ℝ) → List (List ℝ))
    (w va yw : List (List ℝ)) (numPoints : Nat) (flexibility : ℝ)
    (truncStd : Option ℝ) :
    sampleRun M cp bn1 bn2 w va yw numPoints flexibility truncStd = none := by
  cases truncStd <;> rfl

end ModelLayer

/-! ### load_partial_state_dict of FlowVAESurfaceConditional

Lines 35 to 43 of models/vae_flow_surface_mhsa.py:

  model_state_dict = self.state_dict()
  filtered_state_dict = {k: v for k, v in state_dict.items() if k in model_state_dict}
  model_state_dict.update(filtered_state_dict)
  self.load_state_dict(model_state_dict, strict=False)

Python dicts are modelled as association lists keyed by parameter names; the
value type stays abstract. -/

/-- Lookup in a Python dict modelled as an association list. -/
def pyDictLookup {V : Type} : List (String × V) → String → Option V
  | [], _ => none
  | kv :: d, k => if kv.1 = k then some kv.2 else pyDictLookup d k

/-- One entry of d after dict.update(e): its value is replaced when e holds
its key. -/
def overrideWith {V : Type} (e : List (String × V)) (kv : String × V) : String × V :=
  match pyDictLookup e kv.1 with
  | some v => (kv.1, v)
  | none => kv

/-- Python dict.update: entries of d keep their position with values
overridden from e, and entries of e with new keys are appended. -/
def pyDictUpdate {V : Type} (d e : List (String × V)) : List (String × V) :=
  d.map (overrideWith e) ++ e.filter (fun kv => (pyDictLookup d kv.1).isNone)

/-- The dict comprehension of line 37: the incoming entries whose keys are
parameters of the current model. -/
def filteredStateDict {V : Type} (model incoming : List (String × V)) : List (String × V) :=
  incoming.filter (fun kv => (pyDictLookup model kv.1).isSome)

/-- load_partial_state_dict: the mapping actually loaded into the model,
namely the model state dict updated with the filtered incoming entries
(loaded with strict=False, which assigns exactly these entries). -/
def loadStateDictSubset {V : Type} (model incoming : List (String × V)) :
    List (String × V) :=
  pyDictUpdate model (filteredStateDict model incoming)

/-- The key sequence of a dict. -/
def keysOf {V : Type} (d : List (String × V)) : List String := d.map (fun kv => kv.1)

theorem overrideWith_fst {V : Type} (e : List (String × V)) (kv : String × V) :
    (overrideWith e kv).1 = kv.1 := by
  unfold overrideWith
  cases pyDictLookup e kv.1 <;> rfl

theorem pyDictLookup_map_overrideWith {V : Type} (d e : List (String × V)) (k : String) :
    pyDictLookup (d.map (overrideWith e)) k =
      (pyDictLookup d k).map (fun v => (pyDictLookup e k).getD v) := by
  induction d with
  | nil => rfl
  | cons kv d ih =>
      simp only [List.map_cons, pyDictLookup, overrideWith_fst]
      by_cases h : kv.1 = k
      · subst h
        simp only [if_pos rfl, Option.map_some]
        unfold overrideWith
        cases he : pyDictLookup e kv.1 <;> simp [he]
      · simp only [if_neg h, ih]

theorem pyDictLookup_filter_key {V : Type} (f : String → Bool)
    (e : List (String × V)) (k : String) :
    pyDictLookup (e.filter (fun kv => f kv.1)) k =
      if f k then pyDictLookup e k else none := by
  induction e with
  | nil => cases f k <;> simp [pyDictLookup]
  | cons kv e ih =>
      by_cases h : kv.1 = k
      · subst h
        cases hf : f kv.1 <;> simp [pyDictLookup, hf, ih]
      · cases hf : f kv.1 <;> simp [pyDictLookup, hf, ih, h]

/-- The appended part of the update inside load_partial_state_dict is empty:
every filtered entry has its key in the model dict. -/
theorem filteredStateDict_no_new_keys {V : Type} (model incoming : List (String × V)) :
    (filteredStateDict model incoming).filter
      (fun kv => (pyDictLookup model kv.1).isNone) = [] := by
  induction incoming with
  | nil => rfl
  | cons kv l ih =>
      unfold filteredStateDict at *
      cases h : (pyDictLookup model kv.1).isSome with
      | false => simp [List.filter, h, ih]
      | true =>
          have hn : (pyDictLookup model kv.1).isNone = false := by
            cases hm : pyDictLookup model kv.1 <;> simp [hm] at h ⊢
          simp [List.filter, h, hn, ih]

/-- loadStateDictSubset written without the (empty) appended part. -/
theorem loadStateDictSubset_eq_map {V : Type} (model incoming : List (String × V)) :
    loadStateDictSubset model incoming =
      model.map (overrideWith (filteredStateDict model incoming)) := by
  unfold loadStateDictSubset pyDictUpdate
  rw [filteredStateDict_no_new_keys, List.append_nil]

/-- C6: load_partial_state_dict is a lenient merge: the loaded mapping has
exactly the current model's parameter names (so the non-strict load has no
missing and no unexpected key and never raises), incoming entries whose
names are not model parameters are ignored, model parameters absent from the
incoming mapping keep their prior values, and parameters present in both are
overwritten with the incoming values. -/
theorem c6_load_state_dict_lenient {V : Type} (model incoming : List (String × V)) :
    keysOf (loadStateDictSubset model incoming) = keysOf model ∧
    (∀ k, pyDictLookup model k = none →
      pyDictLookup (loadStateDictSubset model incoming) k = none) ∧
    (∀ k v, pyDictLookup model k = some v → pyDictLookup incoming k = none →
      pyDictLookup (loadStateDictSubset model incoming) k = some v) ∧
    (∀ k v w, pyDictLookup model k = some v → pyDictLookup incoming k = some w →
      pyDictLookup (loadStateDictSubset model incoming) k = some w) := by
  have hfil : ∀ k, pyDictLookup (filteredStateDict model incoming) k =
      if (pyDictLookup model k).isSome then pyDictLookup incoming k else none := by
    intro k
    exact pyDictLookup_filter_key (fun s => (pyDictLookup model s).isSome) incoming k
  refine ⟨?_, ?_, ?_, ?_⟩
  · rw [loadStateDictSubset_eq_map]
    unfold keysOf
    rw [List.map_map]
    exact List.map_congr_left (fun kv _ => overrideWith_fst _ kv)
  · intro k hk
    rw [loadStateDictSubset_eq_map, pyDictLookup_map_overrideWith, hk]
    rfl
  · intro k v hk hi
    rw [loadStateDictSubset_eq_map, pyDictLookup_map_overrideWith, hk, hfil, hk]
    simp [hi]
  · intro k v w hk hi
    rw [loadStateDictSubset_eq_map, pyDictLookup_map_overrideWith, hk, hfil, hk]
    simp [hi]

/-- A concrete model state dict with two parameters. -/
def sdModelEx : List (String × Int) := [("fc.weight", 1), ("fc.bias", 2)]

/-- A concrete incoming mapping: one matching key, one unknown key, and the
parameter fc.weight missing. -/
def sdIncomingEx : List (String × Int) := [("fc.bias", 20), ("unknown.param", 9)]

/-- Witness for C6 at the concrete dicts: the unknown incoming key is
ignored, the missing parameter keeps its prior value, and the matching
parameter takes the incoming value. -/
theorem c6_load_state_dict_lenient_witness :
    pyDictLookup (loadStateDictSubset sdModelEx sdIncomingEx) ("unknown.param") = none ∧
    pyDictLookup (loadStateDictSubset sdModelEx sdIncomingEx) ("fc.weight") = some 1 ∧
    pyDictLookup (loadStateDictSubset sdModelEx sdIncomingEx) ("fc.bias") = some 20 :=
  ⟨(c6_load_state_dict_lenient sdModelEx sdIncomingEx).2.1 ("unknown.param") (by decide),
   (c6_load_state_dict_lenient sdModelEx sdIncomingEx).2.2.1 ("fc.weight") 1
     (by decide) (by decide),
   (c6_load_state_dict_lenient sdModelEx sdIncomingEx).2.2.2 ("fc.bias") 2 20
     (by decide) (by decide)⟩

/-! ### The dataset layer: utils/dataset.py

The category table of lines 12 to 35, the constructor validation of
ShapeNetCore and PandaSet, the per-entry normalization of their load
methods, and the deterministic sort-and-shuffle ordering. -/

/-- The synsetid_to_cate table of utils/dataset.py. -/
def synsetidToCate : List (String × String) :=
  [("02691156", "airplane"), ("02773838", "bag"), ("02801938", "basket"),
   ("02808440", "bathtub"), ("02818832", "bed"), ("02828884", "bench"),
   ("02876657", "bottle"), ("02880940", "bowl"), ("02924116", "bus"),
   ("02933112", "cabinet"), ("02747177", "can"), ("02942699", "camera"),
   ("02954340", "cap"), ("02958343", "car"), ("03001627", "chair"),
   ("03046257", "clock"), ("03207941", "dishwasher"), ("03211117", "monitor"),
   ("04379243", "table"), ("04401088", "telephone"), ("02946921", "tin_can"),
   ("04460130", "tower"), ("04468005", "train"), ("03085013", "keyboard"),
   ("03261776", "earphone"), ("03325088", "faucet"), ("03337140", "file"),
   ("03467517", "guitar"), ("03513137", "helmet"), ("03593526", "jar"),
   ("03624134", "knife"), ("03636649", "lamp"), ("03642806", "laptop"),
   ("03691459", "speaker"), ("03710193", "mailbox"), ("03759954", "microphone"),
   ("03761084", "microwave"), ("03790512", "motorcycle"), ("03797390", "mug"),
   ("03928116", "piano"), ("03938244", "pillow"), ("03948459", "pistol"),
   ("03991062", "pot"), ("04004475", "printer"), ("04074963", "remote_control"),
   ("04090263", "rifle"), ("04099429", "rocket"), ("04225987", "skateboard"),
   ("04256520", "sofa"), ("04330267", "stove"), ("04530566", "vessel"),
   ("04554684", "washer"), ("02992529", "cellphone"),
   ("02843684", "birdhouse"), ("02871439", "bookshelf")]

/-- The reversed table cate_to_synsetid of line 35. -/
def cateToSynsetid : List (String × String) := synsetidToCate.map (fun p => (p.2, p.1))

/-- The membership test of the assert on line 45 and line 154:
split in ('train', 'val', 'test'). -/
def validSplit (s : String) : Bool := s == "train" || s == "val" || s == "test"

/-- The membership test of the assert on line 46 and line 155: scale_mode is
None or one of the five mode names. -/
def validScaleMode : Option String → Bool
  | none => true
  | some m => m == "global_unit" || m == "shape_unit" || m == "shape_bbox" ||
      m == "shape_half" || m == "shape_34"

/-- The list comprehension [cate_to_synsetid[s] for s in cates] of line 50:
evaluated left to right, the first unknown name raises KeyError. -/
def resolveCates : List String → Except String (List String)
  | [] => .ok []
  | c :: rest =>
      match pyDictLookup cateToSynsetid c with
      | none => .error c
      | some sid =>
          match resolveCates rest with
          | .error e => .error e
          | .ok sids => .ok (sid :: sids)

/-- An error raised during dataset construction: a failed assert (split or
scale_mode) or a KeyError on a category name. -/
inductive InitError where
  | assertSplit
  | assertScaleMode
  | keyError (k : String)

/-- Whether a construction attempt raised. -/
def isFailed {A : Type} : Except InitError A → Bool
  | .error _ => true
  | .ok _ => false

/-- The contract of random.Random(2020).shuffle: the Fisher-Yates shuffle of
the Python standard library permutes a list by index draws that depend only
on the generator seed and the list length, so it is one fixed function of
the seed and the list. -/
structure PyShuffle where
  perm : {α : Type} → Nat → List α → List α

/-- The identity permutation as a concrete shuffle library. -/
def pyShuffleId : PyShuffle := { perm := fun _ l => l }

noncomputable section DatasetNumerics

/-- torch pc.mean(dim=0): the per-column mean of a point cloud. -/
def colMean (pc : List (List ℝ)) : List ℝ := pc.transpose.map listMean

/-- torch .std(): the unbiased sample standard deviation of a list. -/
def sampleStd (l : List ℝ) : ℝ :=
  Real.sqrt (((l.map (fun x => (x - listMean l) ^ 2)).sum) / ((l.length : ℝ) - 1))

/-- torch pc.flatten().std(): the sample standard deviation of all
coordinates of a point cloud. -/
def flatStd (pc : List (List ℝ)) : ℝ := sampleStd pc.flatten

/-- The largest entry of a list (its head for the base of the fold). -/
def listMaxD (l : List ℝ) : ℝ := l.foldr max (l.headD 0)

/-- The smallest entry of a list. -/
def listMinD (l : List ℝ) : ℝ := l.foldr min (l.headD 0)

/-- torch pc.max(dim=0): the per-column maximum. -/
def colMax (pc : List (List ℝ)) : List ℝ := pc.transpose.map listMaxD

/-- torch pc.min(dim=0): the per-column minimum. -/
def colMin (pc : List (List ℝ)) : List ℝ := pc.transpose.map listMinD

/-- The scale-mode branches shared by ShapeNetCore.load (lines 103 to 122)
and PandaSet.load (lines 240 to 259): the shift row and the scalar scale for
each mode; the global_unit mode uses the dataset-level standard deviation
from get_statistics. -/
def shiftScaleOf (globalStd : ℝ) (sm : Option String) (pc : List (List ℝ)) :
    List ℝ × ℝ :=
  if sm = some "global_unit" then (colMean pc, globalStd)
  else if sm = some "shape_unit" then (colMean pc, flatStd pc)
  else if sm = some "shape_half" then (colMean pc, flatStd pc / (1 / 2))
  else if sm = some "shape_34" then (colMean pc, flatStd pc / (3 / 4))
  else if sm = some "shape_bbox" then
    (List.zipWith (fun a b => (a + b) / 2) colMinVal colMaxVal,
     listMaxD (List.zipWith (fun a b => a - b) colMaxVal colMinVal) / 2)
  else (List.replicate 3 0, 1)
where
  colMaxVal := colMax pc
  colMinVal := colMin pc

/-- pc = (pc - shift) / scale applied row-wise. -/
def normRows (pc : List (List ℝ)) (shift : List ℝ) (scale : ℝ) : List (List ℝ) :=
  pc.map (fun r => List.zipWith (fun a s => (a - s) / scale) r shift)

/-- Row-wise subtraction of a position vector, pc - pos. -/
def subRows (pc : List (List ℝ)) (pos : List ℝ) : List (List ℝ) :=
  pc.map (fun r => List.zipWith (fun a b => a - b) r pos)

/-- The Euclidean norm of one row, torch.norm(..., dim=1) per point. -/
def rowNorm (r : List ℝ) : ℝ := Real.sqrt ((r.map (fun x => x ^ 2)).sum)

/-- Python float modulo x % y = x - y * floor(x / y), the sign following y. -/
def pyFmod (x y : ℝ) : ℝ := x - y * ⌊x / y⌋

/-- normalize_angle of PandaSet.load (lines 265 to 268):
(angle + pi) % (2 * pi) - pi. -/
def normalizeAngle (a : ℝ) : ℝ := pyFmod (a + Real.pi) (2 * Real.pi) - Real.pi

/-! #### ShapeNetCore entries and ordering -/

/-- One stored sample of ShapeNetCore. -/
structure SNEntry where
  pointcloud : List (List ℝ)
  cate : String
  id : Nat
  shift : List ℝ
  scale : ℝ

/-- One iteration of the loop body of ShapeNetCore.load (lines 101 to 132). -/
def shapeNetEntryOf (globalStd : ℝ) (sm : Option String) (cateName : String)
    (j : Nat) (pc : List (List ℝ)) : SNEntry :=
  let ss := shiftScaleOf globalStd sm pc
  { pointcloud := normRows pc ss.1 ss.2, cate := cateName, id := j,
    shift := ss.1, scale := ss.2 }

/-- The entries of ShapeNetCore.load in file order: for each synsetid the
point clouds of the chosen split, enumerated from 0 (the enumerate index j
becomes the id). -/
def shapeNetRawEntries (fileData : String → List (List (List ℝ))) (globalStd : ℝ)
    (sm : Option String) (synsetids : List String) : List SNEntry :=
  synsetids.flatMap (fun sid =>
    ((fileData sid).enum).map (fun jp =>
      shapeNetEntryOf globalStd sm ((pyDictLookup synsetidToCate sid).getD "") jp.1 jp.2))

/-- Lines 134 to 136 of ShapeNetCore.load: a stable ascending sort on id
followed by the seed-2020 shuffle.  The parameter grand stands for the state
of the ambient global random module: the code builds its own
random.Random(2020), so grand is never consulted. -/
def shapeNetLoad (lib : PyShuffle) (fileData : String → List (List (List ℝ)))
    (globalStd : ℝ) (sm : Option String) (synsetids : List String) (_grand : Nat) :
    List SNEntry :=
  lib.perm 2020 (List.insertionSort (fun a b => a.id ≤ b.id)
    (shapeNetRawEntries fileData globalStd sm synsetids))

/-- A constructed ShapeNetCore dataset. -/
structure SNDataset where
  synsetids : List String
  split : String
  scaleMode : Option String
  entries : List SNEntry

/-- ShapeNetCore.__init__ (lines 42 to 60): the split and scale_mode asserts,
the resolution of category names through cate_to_synsetid (with the special
name all replaced by the whole table before resolution), the sort of the
synsetids, and the load.  File access is abstracted by fileData (the split's
point clouds per synsetid) and globalStd (the statistics of
get_statistics). -/
def shapeNetCoreInit (lib : PyShuffle) (fileData : String → List (List (List ℝ)))
    (globalStd : ℝ) (cates : List String) (split : String) (sm : Option String)
    (grand : Nat) : Except InitError SNDataset :=
  if validSplit split then
    if validScaleMode sm then
      let cates1 := if ("all" : String) ∈ cates
        then cateToSynsetid.map (fun p => p.1) else cates
      match resolveCates cates1 with
      | .error c => .error (.keyError c)
      | .ok sids =>
          let sorted := List.insertionSort (fun a b : String => a ≤ b) sids
          .ok { synsetids := sorted, split := split, scaleMode := sm,
                entries := shapeNetLoad lib fileData globalStd sm sorted grand }
    else .error .assertScaleMode
  else .error .assertSplit

/-! #### PandaSet entries and ordering -/

/-- One object of the pickled PandaSet file: its points, box position, and
the two pose angles of its box. -/
structure PandaObj where
  points : List (List ℝ)
  position : List ℝ
  viewAngle : ℝ
  yaw : ℝ

/-- The three splits stored under one class key of the pickled file. -/
structure PandaFileCls where
  train : List PandaObj
  val : List PandaObj
  test : List PandaObj

/-- data[cls][split]. -/
def splitObjs (pf : PandaFileCls) (split : String) : List PandaObj :=
  if split = "train" then pf.train else if split = "val" then pf.val else pf.test

/-- The statistics record of PandaSet.get_statistics. -/
structure PandaStats where
  mean : List ℝ
  std : ℝ
  meanDist : ℝ
  stdDist : ℝ

/-- PandaSet.normalize_point_cloud with the default shape_unit mode. -/
def normalizePcShapeUnit (pc : List (List ℝ)) : List (List ℝ) :=
  normRows pc (colMean pc) (flatStd pc)

/-- PandaSet.get_statistics (lines 181 to 206): over the three splits, the
distances of each raw point from the box position, and the mean and standard
deviation of the shape_unit-normalized point clouds. -/
def pandaStatsOf (pf : PandaFileCls) : PandaStats :=
  let objs := pf.train ++ pf.val ++ pf.test
  let relDist := (objs.map (fun o => (subRows o.points o.position).map rowNorm)).flatten
  let allPts := (objs.map (fun o => normalizePcShapeUnit o.points)).flatten
  { mean := colMean allPts, std := flatStd allPts,
    meanDist := listMean relDist, stdDist := sampleStd relDist }

/-- One stored sample of PandaSet. -/
structure PandaEntry where
  pointcloud : List (List ℝ)
  viewAngle : ℝ
  yaw : ℝ
  cate : String
  id : Nat
  shift : ℝ
  scale : ℝ

/-- One iteration of the loop body of PandaSet.load (lines 232 to 278):
shift the points to the box position, normalize by the scale mode, divide
the view angle by pi, shift the yaw by pi/2, wrap it into [-pi, pi) and
divide by pi. -/
def pandaEntryOf (stats : PandaStats) (sm : Option String) (cls : String)
    (pcId : Nat) (obj : PandaObj) : PandaEntry :=
  let pc0 := subRows obj.points obj.position
  let ss := shiftScaleOf stats.std sm pc0
  { pointcloud := normRows pc0 ss.1 ss.2,
    viewAngle := obj.viewAngle / Real.pi,
    yaw := normalizeAngle (obj.yaw - Real.pi / 2) / Real.pi,
    cate := cls, id := pcId, shift := stats.meanDist, scale := stats.stdDist }

/-- The entries of PandaSet.load in file order, enumerated from 0. -/
def pandaRawEntries (stats : PandaStats) (sm : Option String) (cls : String)
    (objs : List PandaObj) : List PandaEntry :=
  objs.enum.map (fun p => pandaEntryOf stats sm cls p.1 p.2)

/-- Lines 280 to 282 of PandaSet.load: the stable ascending sort on id
followed by the seed-2020 shuffle; grand again stands for the never-consulted
ambient global random state. -/
def pandaLoad (lib : PyShuffle) (stats : PandaStats) (sm : Option String)
    (cls : String) (objs : List PandaObj) (_grand : Nat) : List PandaEntry :=
  lib.perm 2020 (List.insertionSort (fun a b => a.id ≤ b.id)
    (pandaRawEntries stats sm cls objs))

/-- A constructed PandaSet dataset. -/
structure PandaDataset where
  cls : String
  split : String
  scaleMode : Option String
  stats : PandaStats
  entries : List PandaEntry

/-- PandaSet.__init__ (lines 152 to 167): the split and scale_mode asserts,
then get_statistics, whose subscript data[self.cls] raises KeyError when the
class is not a key of the pickled file, then the load. -/
def pandaSetInit (lib : PyShuffle) (fileData : String → Option PandaFileCls)
    (cls split : String) (sm : Option String) (grand : Nat) :
    Except InitError PandaDataset :=
  if validSplit split then
    if validScaleMode sm then
      match fileData cls with
      | none => .error (.keyError cls)
      | some pf =>
          .ok { cls := cls, split := split, scaleMode := sm,
                stats := pandaStatsOf pf,
                entries := pandaLoad lib (pandaStatsOf pf) sm cls
                  (splitObjs pf split) grand }
    else .error .assertScaleMode
  else .error .assertSplit

end DatasetNumerics

/-! ### Claim theorems about the dataset layer: validation, pose range,
ordering -/

theorem resolveCates_error_of_bad (c : String) :
    ∀ l : List String, c ∈ l → pyDictLookup cateToSynsetid c = none →
      ∃ e, resolveCates l = .error e := by
  intro l
  induction l with
  | nil => intro h; exact absurd h (List.not_mem_nil c)
  | cons d rest ih =>
      intro hmem hnone
      rcases List.mem_cons.mp hmem with hcd | hrest
      · subst hcd
        exact ⟨c, by simp [resolveCates, hnone]⟩
      · cases hd : pyDictLookup cateToSynsetid d with
        | none => exact ⟨d, by simp [resolveCates, hd]⟩
        | some sid =>
            obtain ⟨e, he⟩ := ih hrest hnone
            exact ⟨e, by simp [resolveCates, hd, he]⟩

/-- C7 (amended): the split and scale_mode asserts fail at construction for
both dataset classes; an unknown category name fails at construction for
ShapeNetCore whenever the special name all is absent, and an unknown class
key fails at construction for PandaSet; but a cates list containing all
bypasses the resolution of its other names entirely (see the
counterexample). -/
theorem c7_invalid_args_fail (lib : PyShuffle)
    (fd : String → List (List (List ℝ))) (gstd : ℝ) (cates : List String)
    (pfd : String → Option PandaFileCls) (cls split : String)
    (sm : Option String) (g : Nat) :
    (validSplit split = false →
      isFailed (shapeNetCoreInit lib fd gstd cates split sm g) = true) ∧
    (validScaleMode sm = false →
      isFailed (shapeNetCoreInit lib fd gstd cates split sm g) = true) ∧
    (("all" : String) ∉ cates →
      ∀ c ∈ cates, pyDictLookup cateToSynsetid c = none →
        isFailed (shapeNetCoreInit lib fd gstd cates split sm g) = true) ∧
    (validSplit split = false →
      isFailed (pandaSetInit lib pfd cls split sm g) = true) ∧
    (validScaleMode sm = false →
      isFailed (pandaSetInit lib pfd cls split sm g) = true) ∧
    (pfd cls = none →
      isFailed (pandaSetInit lib pfd cls split sm g) = true) := by
  refine ⟨?_, ?_, ?_, ?_, ?_, ?_⟩
  · intro h
    simp [shapeNetCoreInit, h, isFailed]
  · intro h
    cases hs : validSplit split <;> simp [shapeNetCoreInit, h, hs, isFailed]
  · intro hall c hc hnone
    cases hs : validSplit split with
    | false => simp [shapeNetCoreInit, hs, isFailed]
    | true =>
        cases hm : validScaleMode sm with
        | false => simp [shapeNetCoreInit, hs, hm, isFailed]
        | true =>
            obtain ⟨e, he⟩ := resolveCates_error_of_bad c cates hc hnone
            simp [shapeNetCoreInit, hs, hm, hall, he, isFailed]
  · intro h
    simp [pandaSetInit, h, isFailed]
  · intro h
    cases hs : validSplit split <;> simp [pandaSetInit, h, hs, isFailed]
  · intro h
    cases hs : validSplit split with
    | false => simp [pandaSetInit, hs, isFailed]
    | true =>
        cases hm : validScaleMode sm with
        | false => simp [pandaSetInit, hs, hm, isFailed]
        | true => simp [pandaSetInit, hs, hm, h, isFailed]

/-- C7 (counterexample to the claim as stated): a cates list holding the
special name all together with the invalid name boat (a name the table
explicitly excludes) is accepted: construction succeeds because the presence
of all replaces the whole list before any name is resolved. -/
theorem c7_all_bypasses_category_check :
    isFailed (shapeNetCoreInit pyShuffleId (fun _ => []) 1 ["all", "boat"]
      ("train") none 0) = false := by rfl

/-- Witness for C7 at concrete invalid arguments: a bad split, a bad
scale_mode and a bad category for ShapeNetCore, and a bad split and a
missing class key for PandaSet, each failing at construction. -/
theorem c7_invalid_args_fail_witness :
    isFailed (shapeNetCoreInit pyShuffleId (fun _ => []) 1 ["car"] ("tset") none 0) = true ∧
    isFailed (shapeNetCoreInit pyShuffleId (fun _ => []) 1 ["car"] ("train")
      (some ("bogus_mode")) 0) = true ∧
    isFailed (shapeNetCoreInit pyShuffleId (fun _ => []) 1 ["boat"] ("train") none 0) = true ∧
    isFailed (pandaSetInit pyShuffleId (fun _ => none) ("Car") ("tset") none 0) = true ∧
    isFailed (pandaSetInit pyShuffleId (fun _ => none) ("Car") ("train")
      (some ("bogus_mode")) 0) = true ∧
    isFailed (pandaSetInit pyShuffleId (fun _ => none) ("Car") ("train") none 0) = true :=
  ⟨(c7_invalid_args_fail pyShuffleId (fun _ => []) 1 ["car"] (fun _ => none)
      ("Car") ("tset") none 0).1 (by decide),
   (c7_invalid_args_fail pyShuffleId (fun _ => []) 1 ["car"] (fun _ => none)
      ("Car") ("train") (some ("bogus_mode")) 0).2.1 (by decide),
   (c7_invalid_args_fail pyShuffleId (fun _ => []) 1 ["boat"] (fun _ => none)
      ("Car") ("train") none 0).2.2.1 (by decide) ("boat") (by decide) (by decide),
   (c7_invalid_args_fail pyShuffleId (fun _ => []) 1 ["car"] (fun _ => none)
      ("Car") ("tset") none 0).2.2.2.1 (by decide),
   (c7_invalid_args_fail pyShuffleId (fun _ => []) 1 ["car"] (fun _ => none)
      ("Car") ("train") (some ("bogus_mode")) 0).2.2.2.2.1 (by decide),
   (c7_invalid_args_fail pyShuffleId (fun _ => []) 1 ["car"] (fun _ => none)
      ("Car") ("train") none 0).2.2.2.2.2 rfl⟩

theorem pyFmod_bounds (x y : ℝ) (hy : 0 < y) : 0 ≤ pyFmod x y ∧ pyFmod x y < y := by
  have h1 : ((⌊x / y⌋ : ℤ) : ℝ) ≤ x / y := Int.floor_le (x / y)
  have h2 : x / y < (⌊x / y⌋ : ℤ) + 1 := Int.lt_floor_add_one (x / y)
  have hxy : y * (x / y) = x := by field_simp
  have h3 : y * ((⌊x / y⌋ : ℤ) : ℝ) ≤ x := by
    calc y * ((⌊x / y⌋ : ℤ) : ℝ) ≤ y * (x / y) := mul_le_mul_of_nonneg_left h1 hy.le
      _ = x := hxy
  have h4 : x < y * ((⌊x / y⌋ : ℤ) : ℝ) + y := by
    calc x = y * (x / y) := hxy.symm
      _ < y * (((⌊x / y⌋ : ℤ) : ℝ) + 1) := mul_lt_mul_of_pos_left h2 hy
      _ = y * ((⌊x / y⌋ : ℤ) : ℝ) + y := by ring
  unfold pyFmod
  constructor <;> linarith

/-- The wrapped angle lies in the interval from -pi inclusive to pi
exclusive, whatever the raw angle. -/
theorem normalizeAngle_bounds (a : ℝ) :
    -Real.pi ≤ normalizeAngle a ∧ normalizeAngle a < Real.pi := by
  have h2pi : (0 : ℝ) < 2 * Real.pi := by positivity
  obtain ⟨h1, h2⟩ := pyFmod_bounds (a + Real.pi) (2 * Real.pi) h2pi
  unfold normalizeAngle
  constructor <;> linarith

/-- C8 (amended): the yaw served by PandaSet is normalized into the interval
from -1 inclusive to 1 exclusive for every raw yaw in the file, while the
served view_angle is only the raw view angle divided by pi: it lies in
[-1, 1] exactly when the raw view angle lies in [-pi, pi], and escapes the
bounded range otherwise (see the counterexample). -/
theorem c8_pose_fields_bounds (stats : PandaStats) (sm : Option String)
    (cls : String) (pcId : Nat) (obj : PandaObj) :
    (-1 ≤ (pandaEntryOf stats sm cls pcId obj).yaw ∧
      (pandaEntryOf stats sm cls pcId obj).yaw < 1) ∧
    (|obj.viewAngle| ≤ Real.pi → |(pandaEntryOf stats sm cls pcId obj).viewAngle| ≤ 1) ∧
    (Real.pi < |obj.viewAngle| → 1 < |(pandaEntryOf stats sm cls pcId obj).viewAngle|) := by
  have hyaw : (pandaEntryOf stats sm cls pcId obj).yaw =
      normalizeAngle (obj.yaw - Real.pi / 2) / Real.pi := rfl
  have hva : (pandaEntryOf stats sm cls pcId obj).viewAngle =
      obj.viewAngle / Real.pi := rfl
  obtain ⟨h1, h2⟩ := normalizeAngle_bounds (obj.yaw - Real.pi / 2)
  refine ⟨⟨?_, ?_⟩, ?_, ?_⟩
  · rw [hyaw, le_div_iff₀ Real.pi_pos]
    linarith
  · rw [hyaw, div_lt_one Real.pi_pos]
    exact h2
  · intro h
    rw [hva, abs_div, abs_of_pos Real.pi_pos, div_le_one Real.pi_pos]
    exact h
  · intro h
    rw [hva, abs_div, abs_of_pos Real.pi_pos, lt_div_iff₀ Real.pi_pos, one_mul]
    exact h

/-- Statistics placeholder for the concrete pose examples. -/
def pandaStatsEx : PandaStats := { mean := [0, 0, 0], std := 1, meanDist := 0, stdDist := 1 }

/-- A file object whose box view_angle is the raw value 4, outside
[-pi, pi]. -/
def pandaObjViewAngle4 : PandaObj :=
  { points := [[0, 0, 0]], position := [0, 0, 0], viewAngle := 4, yaw := 0 }

/-- A file object with zero pose angles. -/
def pandaObjZero : PandaObj :=
  { points := [[0, 0, 0]], position := [0, 0, 0], viewAngle := 0, yaw := 0 }

/-- C8 (counterexample to the claim as stated): the sample built for a raw
view angle of 4 carries view_angle = 4 / pi, which exceeds 1: the dataset
layer does not wrap or clamp the view angle, it only divides by pi. -/
theorem c8_view_angle_escapes_range :
    1 < (pandaEntryOf pandaStatsEx none ("Car") 0 pandaObjViewAngle4).viewAngle := by
  have hva : (pandaEntryOf pandaStatsEx none ("Car") 0 pandaObjViewAngle4).viewAngle =
      4 / Real.pi := rfl
  rw [hva, lt_div_iff₀ Real.pi_pos, one_mul]
  have h := Real.pi_lt_d2
  linarith

/-- Witness for C8 at the zero-pose object: its raw view angle 0 lies in
[-pi, pi] and the served view_angle lies in [-1, 1]. -/
theorem c8_pose_fields_bounds_witness :
    |pandaObjZero.viewAngle| ≤ Real.pi ∧
    |(pandaEntryOf pandaStatsEx none ("Car") 0 pandaObjZero).viewAngle| ≤ 1 := by
  have h : |pandaObjZero.viewAngle| ≤ Real.pi := by
    have h0 : pandaObjZero.viewAngle = 0 := rfl
    rw [h0, abs_zero]
    exact Real.pi_pos.le
  exact ⟨h, (c8_pose_fields_bounds pandaStatsEx none ("Car") 0 pandaObjZero).2.1 h⟩

/-! ### The getitem clone semantics of both dataset classes

Lines 141 to 145 and 287 to 291 of utils/dataset.py:

  data = \x7bk: v.clone() if isinstance(v, torch.Tensor) else copy(v)
          for k, v in self.pointclouds[idx].items()\x7d

Tensor storage is modelled by a heap of payloads addressed by references;
a stored sample holds references for its tensor fields and immutable values
for the rest.  clone() allocates a fresh cell holding a copy of the payload;
mutation writes through a reference.  The transform is None, as in the
claim. -/

/-- The payload of one stored tensor. -/
abbrev PCData := List ℚ

/-- A field value of a stored sample: a tensor reference or an immutable
string or integer. -/
inductive FieldVal where
  | tref (r : Nat)
  | strv (s : String)
  | intv (n : Int)
deriving DecidableEq

/-- One sample dict: field names with their values. -/
abbrev SampleEntry := List (String × FieldVal)

/-- A dataset with its tensor heap: self.pointclouds plus the storage the
tensors live in. -/
structure DsetState where
  heap : List PCData
  entries : List SampleEntry
deriving DecidableEq

/-- v.clone() for a tensor field: allocate a fresh cell holding a copy of
the payload; copy(v) for an immutable field: the value itself. -/
def cloneField (h : List PCData) : String × FieldVal → (String × FieldVal) × List PCData
  | (k, .tref r) => ((k, .tref h.length), h ++ [h.getD r []])
  | kv => (kv, h)

/-- The dict comprehension of getitem: clone every field left to right,
threading the heap. -/
def cloneEntry (h : List PCData) : SampleEntry → SampleEntry × List PCData
  | [] => ([], h)
  | kv :: rest =>
      let x := cloneField h kv
      let y := cloneEntry x.2 rest
      (x.1 :: y.1, y.2)

/-- getitem of ShapeNetCore and PandaSet with transform = None: read the
stored entry at idx and return its clone together with the grown heap; the
stored entries themselves are untouched. -/
def dsGetitem (s : DsetState) (idx : Nat) : Option (SampleEntry × DsetState) :=
  match s.entries.get? idx with
  | none => none
  | some e =>
      let c := cloneEntry s.heap e
      some (c.1, { heap := c.2, entries := s.entries })

/-- Mutating a returned tensor: write a new payload through its reference. -/
def writeRef (h : List PCData) (r : Nat) (v : PCData) : List PCData := h.set r v

/-- The observable value of a field: tensor fields are read through the
heap. -/
inductive ObsVal where
  | pc (d : PCData)
  | strv (s : String)
  | intv (n : Int)
deriving DecidableEq

/-- Read one field through the heap. -/
def obsField (h : List PCData) : FieldVal → ObsVal
  | .tref r => .pc (h.getD r [])
  | .strv s => .strv s
  | .intv n => .intv n

/-- The observable values of a sample. -/
def obsEntry (h : List PCData) (e : SampleEntry) : List (String × ObsVal) :=
  e.map (fun kv => (kv.1, obsField h kv.2))

/-- Whether a field's reference, if any, lies below n. -/
def fieldBelowB (n : Nat) : FieldVal → Bool
  | .tref r => decide (r < n)
  | _ => true

/-- Whether every reference of a sample lies below n. -/
def entryRefsBelowB (n : Nat) (e : SampleEntry) : Bool :=
  e.all (fun kv => fieldBelowB n kv.2)

/-- Well-formedness of a dataset: every stored reference points into the
heap. -/
def stateWFB (s : DsetState) : Bool :=
  s.entries.all (entryRefsBelowB s.heap.length)

theorem entryRefsBelowB_spec {n : Nat} {e : SampleEntry}
    (h : entryRefsBelowB n e = true) :
    ∀ kv ∈ e, ∀ r, kv.2 = FieldVal.tref r → r < n := by
  intro kv hkv r hr
  have hb := List.all_eq_true.mp h kv hkv
  rw [hr] at hb
  exact of_decide_eq_true hb

theorem getD_append_lt {α : Type} (l l' : List α) (d : α) (n : Nat)
    (h : n < l.length) : (l ++ l').getD n d = l.getD n d := by
  induction l generalizing n with
  | nil => simp at h
  | cons a t ih =>
      cases n with
      | zero => rfl
      | succ m =>
          simp only [List.cons_append, List.getD_cons_succ]
          exact ih m (by simpa using h)

theorem getD_set_ne {α : Type} (l : List α) (r r' : Nat) (v d : α)
    (h : r' ≠ r) : (l.set r v).getD r' d = l.getD r' d := by
  induction l generalizing r r' with
  | nil => simp [List.set]
  | cons a t ih =>
      cases r with
      | zero =>
          cases r' with
          | zero => exact absurd rfl h
          | succ m => rfl
      | succ k =>
          cases r' with
          | zero => rfl
          | succ m =>
              simp only [List.set, List.getD_cons_succ]
              exact ih k m (fun hmk => h (congrArg Nat.succ hmk))

/-- Observations agree on two heaps that read equal at every reference of
the sample. -/
theorem obsEntry_congr {h h' : List PCData} {e : SampleEntry}
    (he : ∀ kv ∈ e, ∀ r, kv.2 = FieldVal.tref r → h'.getD r [] = h.getD r []) :
    obsEntry h' e = obsEntry h e := by
  unfold obsEntry
  refine List.map_congr_left (fun kv hkv => ?_)
  cases hf : kv.2 with
  | tref r => simp only [hf, obsField, he kv hkv r hf]
  | strv s => simp only [hf, obsField]
  | intv n => simp only [hf, obsField]

/-- Cloning only appends to the heap. -/
theorem cloneEntry_heap_ext (e : SampleEntry) :
    ∀ h : List PCData, ∃ ext, (cloneEntry h e).2 = h ++ ext := by
  induction e with
  | nil => intro h; exact ⟨[], by simp [cloneEntry]⟩
  | cons kv rest ih =>
      intro h
      rcases kv with ⟨k, f⟩
      cases f with
      | tref r =>
          obtain ⟨ext, hext⟩ := ih (h ++ [h.getD r []])
          exact ⟨[h.getD r []] ++ ext, by
            simp only [cloneEntry, cloneField]
            rw [hext, List.append_assoc]⟩
      | strv s =>
          obtain ⟨ext, hext⟩ := ih h
          exact ⟨ext, by simpa [cloneEntry, cloneField] using hext⟩
      | intv n =>
          obtain ⟨ext, hext⟩ := ih h
          exact ⟨ext, by simpa [cloneEntry, cloneField] using hext⟩

/-- Every reference of a cloned sample is fresh: at or above the heap length
at cloning time. -/
theorem cloneEntry_refs_fresh (e : SampleEntry) :
    ∀ h : List PCData, ∀ kv ∈ (cloneEntry h e).1, ∀ r,
      kv.2 = FieldVal.tref r → h.length ≤ r := by
  induction e with
  | nil => intro h kv hkv; simp [cloneEntry] at hkv
  | cons kv0 rest ih =>
      intro h kv hkv r hr
      rcases kv0 with ⟨k, f⟩
      cases f with
      | tref r0 =>
          simp only [cloneEntry, cloneField] at hkv
          rcases List.mem_cons.mp hkv with h1 | h2
          · subst h1
            cases hr
            exact le_refl _
          · have := ih (h ++ [h.getD r0 []]) kv h2 r hr
            simp at this
            omega
      | strv s =>
          simp only [cloneEntry, cloneField] at hkv
          rcases List.mem_cons.mp hkv with h1 | h2
          · subst h1; cases hr
          · exact ih h kv h2 r hr
      | intv n =>
          simp only [cloneEntry, cloneField] at hkv
          rcases List.mem_cons.mp hkv with h1 | h2
          · subst h1; cases hr
          · exact ih h kv h2 r hr

/-- The clone observes the same values as the original sample. -/
theorem cloneEntry_obs (e : SampleEntry) :
    ∀ h : List PCData, (∀ kv ∈ e, ∀ r, kv.2 = FieldVal.tref r → r < h.length) →
      obsEntry (cloneEntry h e).2 (cloneEntry h e).1 = obsEntry h e := by
  induction e with
  | nil => intro h _; rfl
  | cons kv0 rest ih =>
      intro h hbelow
      rcases kv0 with ⟨k, f⟩
      have hrest : ∀ kv ∈ rest, ∀ r, kv.2 = FieldVal.tref r → r < h.length :=
        fun kv hkv r hr => hbelow kv (List.mem_cons_of_mem _ hkv) r hr
      cases f with
      | tref r0 =>
          obtain ⟨ext, hext⟩ := cloneEntry_heap_ext rest (h ++ [h.getD r0 []])
          have hrest1 : ∀ kv ∈ rest, ∀ r, kv.2 = FieldVal.tref r →
              r < (h ++ [h.getD r0 []]).length := by
            intro kv hkv r hr
            have := hrest kv hkv r hr
            simp only [List.length_append, List.length_cons, List.length_nil]
            omega
          have htail := ih (h ++ [h.getD r0 []]) hrest1
          have hsame : obsEntry (h ++ [h.getD r0 []]) rest = obsEntry h rest := by
            refine obsEntry_congr (fun kv hkv r hr => ?_)
            exact getD_append_lt _ _ _ _ (hrest kv hkv r hr)
          have hhead : obsField (cloneEntry (h ++ [h.getD r0 []]) rest).2
              (FieldVal.tref h.length) = obsField h (FieldVal.tref r0) := by
            simp only [obsField]
            rw [hext, getD_append_lt _ _ _ _ (by simp)]
            have hpay : (h ++ [h.getD r0 []]).getD h.length [] = h.getD r0 [] := by
              rw [List.getD_eq_getElem?_getD]
              simp
            rw [hpay]
          simp only [cloneEntry, cloneField]
          unfold obsEntry
          simp only [List.map_cons]
          congr 1
          · rw [hhead]
          · simpa [obsEntry] using htail.trans hsame
      | strv s =>
          have htail := ih h hrest
          simp only [cloneEntry, cloneField]
          unfold obsEntry
          simp only [List.map_cons]
          congr 1
      | intv n =>
          have htail := ih h hrest
          simp only [cloneEntry, cloneField]
          unfold obsEntry
          simp only [List.map_cons]
          congr 1

/-- C9: getitem returns a clone: its observable values equal the stored
ones, and writing any payload through a reference of the returned sample
leaves the observable values of every stored sample unchanged, so a second
read of the same index returns the same values as the first. -/
theorem c9_getitem_clones (s : DsetState) (idx : Nat) (e : SampleEntry)
    (s' : DsetState) (kn : String) (r : Nat) (v : PCData)
    (hwf : stateWFB s = true)
    (hget : dsGetitem s idx = some (e, s'))
    (hkv : (kn, FieldVal.tref r) ∈ e) :
    (∀ e0 ∈ s.entries, obsEntry (writeRef s'.heap r v) e0 = obsEntry s.heap e0) ∧
    (∀ e2 s2, dsGetitem (DsetState.mk (writeRef s'.heap r v) s.entries) idx =
        some (e2, s2) → obsEntry s2.heap e2 = obsEntry s'.heap e) := by
  -- unpack the first read
  unfold dsGetitem at hget
  cases hidx : s.entries.get? idx with
  | none => rw [hidx] at hget; exact absurd hget (by simp)
  | some e0 =>
      rw [hidx] at hget
      simp only [Option.some.injEq, Prod.mk.injEq] at hget
      obtain ⟨he, hs⟩ := hget
      have he0mem : e0 ∈ s.entries := List.get?_mem hidx
      have hbelow0 : ∀ kv ∈ e0, ∀ rr, kv.2 = FieldVal.tref rr → rr < s.heap.length :=
        entryRefsBelowB_spec (List.all_eq_true.mp hwf e0 he0mem)
      obtain ⟨ext, hext⟩ := cloneEntry_heap_ext e0 s.heap
      have hheap : s'.heap = (cloneEntry s.heap e0).2 := by rw [← hs]
      have hentries : s'.entries = s.entries := by rw [← hs]
      have hclone : e = (cloneEntry s.heap e0).1 := he.symm
      -- the written reference is fresh
      have hrfresh : s.heap.length ≤ r := by
        refine cloneEntry_refs_fresh e0 s.heap (kn, FieldVal.tref r) ?_ r rfl
        rw [← hclone]; exact hkv
      -- observations of stored samples are unchanged by the write
      have hstored : ∀ e1 ∈ s.entries,
          obsEntry (writeRef s'.heap r v) e1 = obsEntry s.heap e1 := by
        intro e1 he1
        have hb1 : ∀ kv ∈ e1, ∀ rr, kv.2 = FieldVal.tref rr → rr < s.heap.length :=
          entryRefsBelowB_spec (List.all_eq_true.mp hwf e1 he1)
        refine obsEntry_congr (fun kv hkv1 rr hr1 => ?_)
        have hlt := hb1 kv hkv1 rr hr1
        unfold writeRef
        rw [getD_set_ne _ _ _ _ _ (by omega)]
        rw [hheap, hext]
        exact getD_append_lt _ _ _ _ hlt
      refine ⟨hstored, ?_⟩
      -- the second read
      intro e2 s2 hget2
      unfold dsGetitem at hget2
      rw [hidx] at hget2
      simp only [Option.some.injEq, Prod.mk.injEq] at hget2
      obtain ⟨he2, hs2⟩ := hget2
      have hb2 : ∀ kv ∈ e0, ∀ rr, kv.2 = FieldVal.tref rr →
          rr < (writeRef s'.heap r v).length := by
        intro kv hkv2 rr hr2
        have := hbelow0 kv hkv2 rr hr2
        unfold writeRef
        rw [List.length_set, hheap, hext]
        simp
        omega
      have hobs2 : obsEntry s2.heap e2 = obsEntry (writeRef s'.heap r v) e0 := by
        rw [← hs2, he2.symm]
        exact cloneEntry_obs e0 (writeRef s'.heap r v) hb2
      have hobs1 : obsEntry s'.heap e = obsEntry s.heap e0 := by
        rw [hclone, hheap]
        exact cloneEntry_obs e0 s.heap hbelow0
      rw [hobs2, hstored e0 he0mem, hobs1]

/-- A concrete one-sample dataset: one stored tensor of three coordinates,
an id and a category string. -/
def dsEx : DsetState :=
  { heap := [[1, 2, 3]],
    entries := [[("pointcloud", FieldVal.tref 0), ("id", FieldVal.intv 0),
                 ("cate", FieldVal.strv ("car"))]] }

/-- The clone getitem returns for dsEx at index 0: a fresh reference. -/
def dsExClone : SampleEntry :=
  [("pointcloud", FieldVal.tref 1), ("id", FieldVal.intv 0),
   ("cate", FieldVal.strv ("car"))]

/-- The dataset state after that read: the heap has grown by the copied
payload. -/
def dsExAfter : DsetState :=
  { heap := [[1, 2, 3], [1, 2, 3]], entries := dsEx.entries }

/-- Witness for C9 at the concrete dataset: after overwriting the returned
clone's tensor with the payload [9], every stored sample observes its
original values, and a second read of index 0 returns the same values as the
first. -/
theorem c9_getitem_clones_witness :
    (∀ e0 ∈ dsEx.entries, obsEntry (writeRef dsExAfter.heap 1 [9]) e0 =
      obsEntry dsEx.heap e0) ∧
    (∀ e2 s2, dsGetitem (DsetState.mk (writeRef dsExAfter.heap 1 [9]) dsEx.entries) 0 =
        some (e2, s2) →
      obsEntry s2.heap e2 = obsEntry dsExAfter.heap dsExClone) :=
  c9_getitem_clones dsEx 0 dsExClone dsExAfter ("pointcloud") 1 [9]
    (by decide) (by decide) (by decide)

/-- C10: the stored order of both datasets is a deterministic function of the
file contents and the constructor arguments: it does not depend on the
ambient global random state (two constructions with different ambient states
agree), and it equals the stable ascending sort on id followed by the fixed
seed-2020 shuffle of the file-order entries. -/
theorem c10_order_deterministic (lib : PyShuffle)
    (fd : String → List (List (List ℝ))) (gstd : ℝ) (sm : Option String)
    (sids : List String) (stats : PandaStats) (cls : String)
    (objs : List PandaObj) (g1 g2 : Nat) :
    shapeNetLoad lib fd gstd sm sids g1 = shapeNetLoad lib fd gstd sm sids g2 ∧
    shapeNetLoad lib fd gstd sm sids g1 =
      lib.perm 2020 (List.insertionSort (fun a b => a.id ≤ b.id)
        (shapeNetRawEntries fd gstd sm sids)) ∧
    pandaLoad lib stats sm cls objs g1 = pandaLoad lib stats sm cls objs g2 ∧
    pandaLoad lib stats sm cls objs g1 =
      lib.perm 2020 (List.insertionSort (fun a b => a.id ≤ b.id)
        (pandaRawEntries stats sm cls objs)) :=
  ⟨rfl, rfl, rfl, rfl⟩

end AVObjGen
